import Mathlib

/-!
Verification of the connection/protocol-consumer core of pulsar
(`src/pulsar/async/protocols.py`).

The Python classes are shallowly embedded as Lean structures with explicit
state passing.  Stateful methods become functions `State → ... → State`
(paired with a return value or an error where the Python method returns or
raises).  The event machinery (`EventHandler` of the `defer` module) is not
part of the staged sources; those definitions are modelled from the spec and
carry a `Modelled from the spec:` doc comment.  Everything else is translated
directly from `protocols.py`; line numbers in comments refer to that file.
-/

namespace Pulsar

/-! ## Producer admission control (`ConnectionProducer.new_connection`) -/

/-- `BIG = 2**31` (protocols.py line 15), the internal stand-in for an
unbounded `max_connections`. -/
def BIG : Nat := 2 ^ 31

/-- The part of `ConnectionProducer` state that `new_connection` reads and
writes: `_max_connections` (line 548) and the `_received` counter
(line 590). -/
structure ProducerState where
  maxConnections : Nat
  received : Nat
deriving DecidableEq, Repr

/-- `Producer.__init__` (lines 542-548): `_max_connections` becomes
`max_connections or self._max_connections or BIG`; the class default is `0`,
so a zero argument is replaced by `BIG`.  `_received` starts at 0
(line 590). -/
def initProducer (maxConnections : Nat) : ProducerState :=
  { maxConnections := if maxConnections ≠ 0 then maxConnections else BIG
    received := 0 }

/-- `ConnectionProducer.new_connection` (lines 603-635), restricted to the
admission check and the `received` counter.  The returned number models the
`session` id handed to the connection factory; the connection construction
and event binding mutate no producer state.  On a raise the state is
returned unchanged (the raise happens before the increment). -/
def new_connection (p : ProducerState) : ProducerState × Except String Nat :=
  if p.maxConnections ≠ 0 ∧ p.received ≥ p.maxConnections then
    (p, Except.error "Too many connections")
  else
    let session := p.received + 1
    ({ p with received := session }, Except.ok session)

/-- `k` successive calls to `new_connection`, keeping only the state. -/
def callN (p : ProducerState) : Nat → ProducerState
  | 0 => p
  | k + 1 => (new_connection (callN p k)).1

/-! ## Reconnect policy (`ProtocolConsumer.can_reconnect`) -/

/-- The state read by `can_reconnect` (lines 221-233): whether
`self._connection` is set, that connection's `processed` counter, and the
consumer's own `_data_received_count` and `_reconnect_retries`. -/
structure ReconnectState where
  hasConn : Bool
  connProcessed : Nat
  dataReceivedCount : Nat
  reconnectRetries : Nat
deriving DecidableEq, Repr

/-- The outcome of `can_reconnect`: the consumer state afterwards, the
returned count, whether `exc.logged = True` was assigned, and whether
`exc.log()` was called. -/
structure ReconnectOut where
  state : ReconnectState
  ret : Nat
  excLoggedSet : Bool
  excLogCalled : Bool
deriving DecidableEq, Repr

/-- `ProtocolConsumer.can_reconnect` (lines 221-233).  The first branch
(`if conn and not self._data_received_count and conn.processed > 1`) is the
stale keep-alive case. -/
def can_reconnect (s : ReconnectState) (maxReconnect : Nat) : ReconnectOut :=
  if s.hasConn = true ∧ s.dataReceivedCount = 0 ∧ s.connProcessed > 1 then
    { state := s, ret := 1, excLoggedSet := true, excLogCalled := false }
  else if s.reconnectRetries < maxReconnect then
    { state := { s with reconnectRetries := s.reconnectRetries + 1 }
      ret := s.reconnectRetries + 1, excLoggedSet := false, excLogCalled := true }
  else
    { state := s, ret := 0, excLoggedSet := false, excLogCalled := false }

/-! ## Idle-timer discipline (`Connection` timer internals) -/

/-- The part of a `Connection` that the idle-timer methods touch: the
transport (`none` until `connection_made`, otherwise its `closing` flag),
`_timeout`, the `_idle_timeout` handle (modelled as an armed flag) and
whether `_current_consumer` is bound. -/
structure TimerConn where
  transport : Option Bool
  timeout : Nat
  idleTimer : Bool
  consumerBound : Bool
deriving DecidableEq, Repr

/-- `Connection.closed` (lines 341-344): `self._transport.closing if
self._transport else True`. -/
def TimerConn.closed (c : TimerConn) : Bool :=
  match c.transport with
  | some closing => closing
  | none => true

/-- `Connection._add_idle_timeout` (lines 503-506): arm the timer when the
transport is open, no timer is pending, and `self._timeout` is nonzero.  The
consumer slot is not consulted. -/
def add_idle_timeout (c : TimerConn) : TimerConn :=
  if c.closed = false ∧ c.idleTimer = false ∧ c.timeout ≠ 0 then
    { c with idleTimer := true }
  else c

/-- `Connection._cancel_timeout` (lines 508-511). -/
def cancel_timeout (c : TimerConn) : TimerConn :=
  { c with idleTimer := false }

/-- `Connection.connection_made` (lines 418-432) in the first-transport case
(`old_transport is None`): store the transport, fire the `connection_made`
event (no timer effect) and call `_add_idle_timeout`. -/
def timer_connection_made (c : TimerConn) (closing : Bool) : TimerConn :=
  add_idle_timeout { c with transport := some closing }

/-- `Connection.set_consumer` (lines 405-416) as seen by the timer state: it
binds the consumer and never touches `_idle_timeout`.  `none` models the
`assert self._current_consumer is None` failing. -/
def timer_set_consumer (c : TimerConn) : Option TimerConn :=
  if c.consumerBound then none else some { c with consumerBound := true }

/-- `Connection.data_received` (lines 434-453) as seen by the timer state:
`_cancel_timeout` on entry, then the consumer loop (abstracted by
`boundAfterLoop`, whether a consumer is still bound when the buffer is
exhausted), then `_add_idle_timeout` on exit — unconditionally of the
consumer slot. -/
def timer_data_received (c : TimerConn) (boundAfterLoop : Bool) : TimerConn :=
  add_idle_timeout { (cancel_timeout c) with consumerBound := boundAfterLoop }

/-! ## The `Connection.data_received` loop (lines 434-453)

The loop is modelled with the consumer's `_data_received` abstracted to a
behaviour function `behave i buf = (residual, retired)`: the residual bytes
the consumer `i` returned (Python `None` and `b''` both collapse to `[]`)
and whether that call retired the consumer (its user code called
`finished`, which nulls `_current_consumer`, protocols.py lines 207-209).
Consumer ids are allocated in creation order, mirroring the
`self._consumer_factory(self)` call on line 445.  A fuel argument makes the
`while data:` loop structurally recursive. -/

/-- The loop state: the bound consumer (`_current_consumer`) and the id the
factory hands out next. -/
structure LoopState where
  current : Option Nat
  nextId : Nat
deriving DecidableEq, Repr

/-- What a `data_received` call can end in: the loop exhausted the buffer,
raised `ProtocolError` (line 452), or ran out of fuel (the Python loop would
still be running). -/
inductive LoopOutcome where
  | ok (s : LoopState)
  | protocolError (msg : String)
  | fuelOut
deriving DecidableEq, Repr

/-- The `while data:` loop of `Connection.data_received` (lines 440-452):
when no consumer is bound, build one from the factory and `start()` it
(lines 442-446; `start` only fires `pre_request`, no loop-state effect);
feed the buffer to `consumer._data_received` (line 448); raise
`ProtocolError('current consumer not done.')` when a residual comes back
while the consumer is still bound (lines 449-452); otherwise loop on the
residual.  `loop_body` is one iteration; `next` is the rest of the loop. -/
def loop_body (behave : Nat → List Nat → List Nat × Bool)
    (next : LoopState → List Nat → LoopOutcome)
    (s : LoopState) (data : List Nat) : LoopOutcome :=
  let si :=
    match s.current with
    | some i => (s, i)
    | none => ((⟨some s.nextId, s.nextId + 1⟩ : LoopState), s.nextId)
  let r := behave si.2 data
  let s2 : LoopState := if r.2 then { si.1 with current := none } else si.1
  if r.1 ≠ ([] : List Nat) ∧ s2.current.isSome then
    LoopOutcome.protocolError "current consumer not done."
  else
    next s2 r.1

/-- The fuel-indexed loop itself: an empty buffer leaves the loop, otherwise
one `loop_body` iteration runs and the loop continues on the residual. -/
def data_received_loop (behave : Nat → List Nat → List Nat × Bool) :
    Nat → LoopState → List Nat → LoopOutcome
  | _, s, [] => LoopOutcome.ok s
  | 0, _, _ => LoopOutcome.fuelOut
  | fuel + 1, s, a :: rest =>
    loop_body behave (data_received_loop behave fuel) s (a :: rest)

/-! ## Consumers, events and one connection (the world model)

This model carries one `Connection` together with all the
`ProtocolConsumer` objects ever created on it, which is what the consumer
lifecycle methods (`start`, `finished`, `_data_received`), `set_consumer`
and the upgrade machinery read and write.  Consumers are stored in a list
and referred to by index (Python object identity).  Every subscriber
invocation and every `start_request` hook call is appended to a log, so
ordering and exactly-once properties are statements about the log. -/

/-- Event payloads: Python `None`, a request/result value, an `exc_info`
value, and a bytes buffer. -/
inductive Data where
  | noneD
  | natD (n : Nat)
  | excD (e : Nat)
  | bytesD (b : List Nat)
deriving DecidableEq, Repr

/-- Modelled from the spec: the completion cell of a one-time event of the
`EventHandler` class (the `defer` module is not among the staged sources).
`fired` is the stored outcome (`none` while pending) and `subs` the
subscribers attached to the cell; the cell can be detached and re-attached
whole, subscribers included (`pop_event`, upgrade). -/
structure OneTimeEvent where
  fired : Option Data
  subs : List Nat
deriving DecidableEq, Repr

/-- The names of a `ProtocolConsumer`'s one-time events
(`ONE_TIME_EVENTS`, protocols.py line 62). -/
inductive EvName where
  | preRequest
  | finish
  | postRequest
deriving DecidableEq, Repr

/-- Observable actions: a subscriber `s` invoked with payload `d`, or the
subclass `start_request` hook running on consumer `c`. -/
inductive LogEntry where
  | cb (s : Nat) (d : Data)
  | hookRun (c : Nat)
deriving DecidableEq, Repr

/-- One `ProtocolConsumer` (lines 17-244): its three one-time events, the
subscriber lists of its two many-times events, whether `_connection` is set
(to the world's single connection), `_request`, the two counters, and the
attributes the upgrade machinery injects (`_upgraded_from` line 61 and
`_new_connection` line 490, both read back through `getattr` with the
defaults `False`). -/
structure Consumer where
  preRequest : OneTimeEvent
  finish : OneTimeEvent
  postRequest : OneTimeEvent
  dataReceivedSubs : List Nat
  dataProcessedSubs : List Nat
  hasConnection : Bool
  request : Data
  dataReceivedCount : Nat
  reconnectRetries : Nat
  upgradedFrom : Option Nat
  newConnectionFlag : Bool
deriving DecidableEq, Repr

/-- `ProtocolConsumer.__init__` (lines 65-74) before the optional
`set_consumer` call: pending events with no subscribers, zeroed counters,
class defaults for the upgrade attributes. -/
def freshConsumer : Consumer :=
  { preRequest := ⟨none, []⟩
    finish := ⟨none, []⟩
    postRequest := ⟨none, []⟩
    dataReceivedSubs := []
    dataProcessedSubs := []
    hasConnection := false
    request := Data.noneD
    dataReceivedCount := 0
    reconnectRetries := 0
    upgradedFrom := none
    newConnectionFlag := false }

instance : Inhabited Consumer := ⟨freshConsumer⟩

/-- The connection's `_consumer_factory` slot: either the plain
`ProtocolConsumer` factory it was created with, or the
`partial(self._upgrade, factory, consumer, post)` thunk installed by
`Connection.upgrade` (line 492), which closes over the inner factory, the
old consumer and the stolen `post_request` cell. -/
inductive Factory where
  | plain
  | upgraded (base : Factory) (old : Nat) (post : OneTimeEvent)
deriving DecidableEq, Repr

/-- One `Connection` (lines 257-526) plus every consumer created on it:
`_current_consumer`, `_consumer_factory`, `_processed`, whether a transport
is set, the subscriber lists of the connection's three many-times events
(`MANY_TIMES_EVENTS`, line 280), and the observation log. -/
structure World where
  consumers : List Consumer
  current : Option Nat
  factory : Factory
  processed : Nat
  hasTransport : Bool
  manyPre : List Nat
  manyFinish : List Nat
  manyPost : List Nat
  log : List LogEntry
deriving DecidableEq, Repr

/-- The consumer with id `i` (out-of-range reads never happen on the traces
considered; they fall back to a fresh consumer). -/
def getC (w : World) (i : Nat) : Consumer :=
  w.consumers.getD i freshConsumer

/-- Replace consumer `i` by `f` of it. -/
def updC (w : World) (i : Nat) (f : Consumer → Consumer) : World :=
  { w with consumers := w.consumers.set i (f (getC w i)) }

/-- The cell of consumer event `name` (Python `self.events[name]`). -/
def Consumer.getEvent (c : Consumer) : EvName → OneTimeEvent
  | EvName.preRequest => c.preRequest
  | EvName.finish => c.finish
  | EvName.postRequest => c.postRequest

/-- Store a cell under consumer event `name`. -/
def Consumer.setEvent (c : Consumer) : EvName → OneTimeEvent → Consumer
  | EvName.preRequest, e => { c with preRequest := e }
  | EvName.finish, e => { c with finish := e }
  | EvName.postRequest, e => { c with postRequest := e }

/-- Modelled from the spec: `EventHandler.fire_event` on a one-time event
(the `defer` module is not among the staged sources): resolve the cell with
`data` if still pending, invoking each attached subscriber in order, and
return whether the fire took effect; firing a resolved cell is a no-op
returning `False`. -/
def fire_event (w : World) (i : Nat) (name : EvName) (d : Data) : World × Bool :=
  let ev := (getC w i).getEvent name
  match ev.fired with
  | none =>
    let w := updC w i fun c => c.setEvent name ⟨some d, ev.subs⟩
    ({ w with log := w.log ++ ev.subs.map fun s => LogEntry.cb s d }, true)
  | some _ => (w, false)

/-- The world `fire_event` produces when the cell was pending with
subscribers `subs`: the cell resolves to `d` and each subscriber invocation
is appended to the log (see `fire_event_pending`). -/
def fire_result (w : World) (i : Nat) (name : EvName) (d : Data)
    (subs : List Nat) : World :=
  { updC w i fun c => c.setEvent name ⟨some d, subs⟩ with
    log := w.log ++ subs.map fun s => LogEntry.cb s d }

/-- Modelled from the spec: `EventHandler.bind_event` on a one-time event:
attach a subscriber to the cell; when the cell is already resolved the
subscriber is invoked immediately with the stored outcome. -/
def bind_event (w : World) (i : Nat) (name : EvName) (s : Nat) : World :=
  let ev := (getC w i).getEvent name
  match ev.fired with
  | some d => { w with log := w.log ++ [LogEntry.cb s d] }
  | none => updC w i fun c => c.setEvent name ⟨none, ev.subs ++ [s]⟩

/-- Modelled from the spec: `EventHandler.pop_event` on a one-time event:
detach the completion cell, install a fresh pending one in its place, and
return the old cell (subscribers travel with it). -/
def pop_event (w : World) (i : Nat) (name : EvName) : World × OneTimeEvent :=
  ((updC w i fun c => c.setEvent name ⟨none, []⟩), (getC w i).getEvent name)

/-- Modelled from the spec: firing a many-times event invokes each
subscriber of the given list with `data`, in subscription order; no state
is retained. -/
def fire_many (w : World) (subs : List Nat) (d : Data) : World :=
  { w with log := w.log ++ subs.map fun s => LogEntry.cb s d }

/-- Modelled from the spec: `consumer.copy_many_times_events(connection)`
(called by `set_consumer`, line 414): for each many-times event of the
connection whose name the consumer also carries — `pre_request`, `finish`
and `post_request`, which are one-time events of the consumer — bind all of
the connection's subscribers, in order. -/
def copy_many_times_events (w : World) (i : Nat) : World :=
  let w1 := w.manyPre.foldl (fun a s => bind_event a i EvName.preRequest s) w
  let w2 := w.manyFinish.foldl (fun a s => bind_event a i EvName.finish s) w1
  w.manyPost.foldl (fun a s => bind_event a i EvName.postRequest s) w2

/-- The module-level `new_connection(producer)` helper (lines 247-251),
called by `set_consumer` with `consumer.upgraded_from` as `producer`: a
consumer that is not the product of an upgrade has `upgraded_from = False`
(falsy), giving `True`; otherwise the old consumer's injected
`_new_connection` flag is read back (`getattr` default `False`). -/
def new_connection_of (w : World) (upgradedFrom : Option Nat) : Bool :=
  match upgradedFrom with
  | none => true
  | some j => (getC w j).newConnectionFlag

/-- `Connection.set_consumer` (lines 405-416): assert the slot is free
(`none` models the assertion failing), bind the consumer both ways, and —
when `new_connection(consumer.upgraded_from)` holds — copy the connection's
many-times subscribers into the consumer and increment `_processed`.  The
final `consumer.connection_made(self)` hook is a no-op by default
(lines 143-147). -/
def set_consumer (w : World) (i : Nat) : Option World :=
  if w.current.isSome then none
  else
    let w := { w with current := some i }
    let w := updC w i fun c => { c with hasConnection := true }
    let w :=
      if new_connection_of w (getC w i).upgradedFrom then
        let w := copy_many_times_events w i
        { w with processed := w.processed + 1 }
      else w
    some w

/-- `ProtocolConsumer.finished` (lines 198-211): when `self._connection` is
set, null the connection's `_current_consumer` slot (unconditionally — the
slot is not compared with `self`), then fire `finish` with `result`, then
fire `post_request` with `result`. -/
def finished (w : World) (i : Nat) (result : Data) : World :=
  let w := if (getC w i).hasConnection then { w with current := none } else w
  let w := (fire_event w i EvName.finish result).1
  (fire_event w i EvName.postRequest result).1

/-- `self._request = request` (line 190). -/
def set_request (request : Data) (c : Consumer) : Consumer :=
  { c with request := request }

/-- The body of `ProtocolConsumer.start` after its two guards (lines
190-191): store `self._request` and fire `pre_request` with `request` as
payload. -/
def start_fire (w : World) (i : Nat) (request : Data) : World :=
  (fire_event (updC w i (set_request request)) i
    EvName.preRequest request).1

/-- `ProtocolConsumer.start` (lines 175-196).  `hook` is the behaviour of
the subclass `start_request` (line 158: a no-op by default): `none` returns
normally, `some e` raises exception `e`.  The second component is the
`RuntimeError` message when one of the two guards raised (the state is then
unchanged: both raises happen before any mutation; the second message
abbreviates Python's interpolated `'%s has no transport.'`); an exception from
`start_request` is caught and turned into `finished(sys.exc_info())`, so it
never escapes. -/
def start (w : World) (i : Nat) (request : Data) (hook : Option Nat) :
    World × Option String :=
  if (getC w i).hasConnection = false then
    (w, some "Cannot start new request. No connection.")
  else if w.hasTransport = false then
    (w, some "connection has no transport.")
  else
    let w := start_fire w i request
    if request = Data.noneD then (w, none)
    else
      let w := { w with log := w.log ++ [LogEntry.hookRun i] }
      match hook with
      | none => (w, none)
      | some e => (finished w i (Data.excD e), none)

/-- The counter updates at the head of `_data_received` (lines 239-240):
bump `_data_received_count`, zero `_reconnect_retries`. -/
def dr_bump (c : Consumer) : Consumer :=
  { c with dataReceivedCount := c.dataReceivedCount + 1, reconnectRetries := 0 }

/-- The entry of `ProtocolConsumer._data_received` (lines 235-241): the
counter updates, then fire the many-times `data_received` event with the
raw buffer. -/
def dr_enter (w : World) (i : Nat) (data : List Nat) : World :=
  fire_many (updC w i dr_bump) (getC (updC w i dr_bump) i).dataReceivedSubs
    (Data.bytesD data)

/-- `ProtocolConsumer._data_received` (lines 235-244): after `dr_enter`,
invoke the subclass `data_received` method — abstracted as `body`, which may
change the world and returns the residual — then fire the many-times
`data_processed` event with the buffer, and hand back the subclass's return
value. -/
def _data_received (w : World) (i : Nat) (data : List Nat)
    (body : World → World × Data) : World × Data :=
  let w := dr_enter w i data
  let r := body w
  (fire_many r.1 (getC r.1 i).dataProcessedSubs (Data.bytesD data), r.2)

/-- `Connection.upgrade` (lines 473-494): when a current consumer exists
whose `post_request` is unresolved, assert `pre_request` is resolved
(`none` models the assertion failing), steal the `post_request` cell via
`pop_event`, inject `_new_connection := newConn` into the old consumer, and
replace `_consumer_factory` by the `_upgrade` thunk closing over the given
factory (or the present one when the argument is `None`), the old consumer
and the stolen cell.  Otherwise only replace the factory when one was
given. -/
def upgrade (w : World) (consumerFactory : Option Factory) (newConn : Bool) :
    Option World :=
  match w.current with
  | some i =>
    if (getC w i).postRequest.fired = none then
      if (getC w i).preRequest.fired = none then none
      else
        let p := pop_event w i EvName.postRequest
        let w := updC p.1 i fun c => { c with newConnectionFlag := newConn }
        some { w with factory := Factory.upgraded (consumerFactory.getD w.factory) i p.2 }
    else
      match consumerFactory with
      | some f => some { w with factory := f }
      | none => some w
  | none =>
    match consumerFactory with
    | some f => some { w with factory := f }
    | none => some w

/-- Invoking the `_consumer_factory` slot.  `Factory.plain` is
`ProtocolConsumer(connection)` (lines 65-74): a fresh consumer, bound via
`connection.set_consumer(self)` only when a connection argument is passed.
`Factory.upgraded` is `Connection._upgrade` (lines 513-526): build the
consumer from the inner factory *without* a connection, set its
`_upgraded_from`, overwrite its `post_request` cell with the stolen one,
and only then bind it via `set_consumer` when a connection was passed. -/
def apply_factory : World → Factory → Bool → Option (World × Nat)
  | w, Factory.plain, withConn =>
    let i := w.consumers.length
    let w := { w with consumers := w.consumers ++ [freshConsumer] }
    if withConn then (set_consumer w i).map (fun w => (w, i)) else some (w, i)
  | w, Factory.upgraded base old post, withConn =>
    match apply_factory w base false with
    | none => none
    | some (w, i) =>
      let w := updC w i fun c => { c with upgradedFrom := some old, postRequest := post }
      if withConn then (set_consumer w i).map (fun w => (w, i)) else some (w, i)

/-- The new-consumer branch of `Connection.data_received` (lines 441-446):
`consumer = self._consumer_factory(self)` followed by `consumer.start()` —
a `start` with no request, which fires `pre_request` and never reaches the
`start_request` hook. -/
def consumer_from_factory (w : World) : Option (World × Nat) :=
  match apply_factory w w.factory true with
  | none => none
  | some (w, i) =>
    match start w i Data.noneD none with
    | (w, none) => some (w, i)
    | (_, some _) => none

/-! ## Runs used by the upgrade and lifecycle claims -/

/-- How often subscriber `s` was invoked in a log. -/
def cbCount (s : Nat) (log : List LogEntry) : Nat :=
  log.countP fun e =>
    match e with
    | LogEntry.cb t _ => t == s
    | _ => false

/-- A connection mid-request: one bound consumer whose `pre_request` has
resolved, whose `finish` carries subscribers `fs` and whose pending
`post_request` carries subscribers `ps` (the observers of the claim). -/
def upgradeWorld (fs ps : List Nat) : World :=
  { consumers := [{ freshConsumer with
      hasConnection := true
      preRequest := ⟨some Data.noneD, []⟩
      finish := ⟨none, fs⟩
      postRequest := ⟨none, ps⟩ }]
    current := some 0
    factory := Factory.plain
    processed := 1
    hasTransport := true
    manyPre := []
    manyFinish := []
    manyPost := []
    log := [] }

/-- The upgrade run up to the moment the replacement consumer is in place:
`upgrade` with a factory and `new_connection=False`, the old consumer
retiring with `r1`, then the next inbound data building the replacement
through the upgraded factory. -/
def upgradeMid (fs ps : List Nat) (r1 : Data) : Option (World × Nat) :=
  (upgrade (upgradeWorld fs ps) (some Factory.plain) false).bind fun w =>
    consumer_from_factory (finished w 0 r1)

/-- The world `upgradeMid` reaches (established by the C1 theorem): the old
consumer fired `finish` (to `fs`) and its fresh replacement `post_request`
cell (to nobody); the replacement consumer is bound, carries the stolen
cell `⟨none, ps⟩`, and its `pre_request` has fired. -/
def wmid (fs ps : List Nat) (r1 : Data) : World :=
  { consumers := [
      { freshConsumer with
          hasConnection := true
          preRequest := ⟨some Data.noneD, []⟩
          finish := ⟨some r1, fs⟩
          postRequest := ⟨some r1, []⟩ },
      { freshConsumer with
          hasConnection := true
          preRequest := ⟨some Data.noneD, []⟩
          postRequest := ⟨none, ps⟩
          upgradedFrom := some 0 }]
    current := some 1
    factory := Factory.upgraded Factory.plain 0 ⟨none, ps⟩
    processed := 1
    hasTransport := true
    manyPre := []
    manyFinish := []
    manyPost := []
    log := fs.map fun s => LogEntry.cb s r1 }

/-- The full upgrade run: `upgradeMid`, then the replacement consumer
retires with `r2`. -/
def upgradeEnd (fs ps : List Nat) (r1 r2 : Data) : Option World :=
  (upgradeMid fs ps r1).map fun p => finished p.1 p.2 r2

/-- The `upgradeWorld` scenario with one subscriber `m` on the connection's
many-times `finish` event, to observe whether `set_consumer` copies it into
the replacement consumer. -/
def c8World (m : Nat) : World :=
  { upgradeWorld [] [] with manyFinish := [m] }

/-- Upgrade with `new_connection = b`, old consumer retires, replacement
built by the upgraded factory and bound by `set_consumer`. -/
def c8Run (m : Nat) (b : Bool) : Option (World × Nat) :=
  (upgrade (c8World m) (some Factory.plain) b).bind fun w =>
    consumer_from_factory (finished w 0 Data.noneD)

/-- The world `c8Run` reaches (established by the C8 theorem): with
`new_connection = true` the replacement's binding incremented `_processed`
and copied the connection subscriber `m` into the replacement's `finish`
cell; with `new_connection = false` it did neither. -/
def c8Result (m : Nat) (b : Bool) : World :=
  { consumers := [
      { freshConsumer with
          hasConnection := true
          preRequest := ⟨some Data.noneD, []⟩
          finish := ⟨some Data.noneD, []⟩
          postRequest := ⟨some Data.noneD, []⟩
          newConnectionFlag := b },
      { freshConsumer with
          hasConnection := true
          preRequest := ⟨some Data.noneD, []⟩
          finish := ⟨none, if b then [m] else []⟩
          upgradedFrom := some 0 }]
    current := some 1
    factory := Factory.upgraded Factory.plain 0 ⟨none, []⟩
    processed := if b then 2 else 1
    hasTransport := true
    manyPre := []
    manyFinish := [m]
    manyPost := []
    log := [] }

/-- A connection with a transport and no consumer yet. -/
def emptyWorld : World :=
  { consumers := []
    current := none
    factory := Factory.plain
    processed := 0
    hasTransport := true
    manyPre := []
    manyFinish := []
    manyPost := []
    log := [] }

/-- One consumer with a `data_received` subscriber 3 and a `data_processed`
subscriber 4 (for the `_data_received` contract witness). -/
def c6World : World :=
  { emptyWorld with
      consumers := [{ freshConsumer with
        dataReceivedSubs := [3], dataProcessedSubs := [4] }] }

/-- A subclass `data_received` body that consumes everything: it leaves the
world alone and returns Python `None`. -/
def c6Body : World → World × Data :=
  fun v => (v, Data.noneD)

/-- One bound consumer with a pending `pre_request` carrying subscriber 6
(for the `start` contract witness). -/
def c9World : World :=
  { emptyWorld with
      consumers := [{ freshConsumer with
        hasConnection := true, preRequest := ⟨none, [6]⟩ }]
      current := some 0 }

/-- Consumer 0 is created and bound, retires, and consumer 1 is created and
bound in its place — consumer 0 still holds its `_connection` reference. -/
def c4Mid : Option World :=
  (apply_factory emptyWorld Factory.plain true).bind fun p =>
    (apply_factory (finished p.1 p.2 Data.noneD) Factory.plain true).map fun q => q.1

/-! ## Helper lemmas -/

theorem set_getD_self {α : Type} (l : List α) (i : Nat) (d : α)
    (h : i < l.length) : l.set i (l.getD i d) = l := by
  induction l generalizing i with
  | nil => cases h
  | cons x t ih =>
    cases i with
    | zero => rfl
    | succ n =>
      simp only [List.set, List.getD, List.get?_cons_succ]
      have hn := ih (i := n) (Nat.lt_of_succ_lt_succ h)
      simp only [List.getD] at hn
      rw [hn]

theorem getC_lt (w : World) (i : Nat) (h : (getC w i).hasConnection = true) :
    i < w.consumers.length := by
  by_contra hn
  have hfresh : getC w i = freshConsumer := by
    unfold getC
    rw [List.getD_eq_getElem?_getD, List.getElem?_eq_none (Nat.le_of_not_lt hn)]
    rfl
  rw [hfresh] at h
  simp [freshConsumer] at h

theorem getC_updC_self (w : World) (i : Nat) (f : Consumer → Consumer)
    (h : i < w.consumers.length) :
    getC (updC w i f) i = f (getC w i) := by
  show (w.consumers.set i (f (getC w i))).getD i freshConsumer = f (getC w i)
  rw [List.getD_eq_getElem?_getD, List.getElem?_set_eq_of_lt _ h]
  rfl

theorem updC_length (w : World) (i : Nat) (f : Consumer → Consumer) :
    (updC w i f).consumers.length = w.consumers.length :=
  List.length_set w.consumers i (f (getC w i))

theorem getEvent_setEvent_self (c : Consumer) (name : EvName) (e : OneTimeEvent) :
    (c.setEvent name e).getEvent name = e := by
  cases name <;> rfl

theorem fire_event_pending (w : World) (i : Nat) (name : EvName) (d : Data)
    (h : ((getC w i).getEvent name).fired = none) :
    fire_event w i name d =
      (fire_result w i name d ((getC w i).getEvent name).subs, true) := by
  unfold fire_event fire_result
  simp only [h]
  rfl

theorem getC_fire_result (w : World) (i : Nat) (name : EvName) (d : Data)
    (subs : List Nat) (hi : i < w.consumers.length) :
    getC (fire_result w i name d subs) i =
      (getC w i).setEvent name ⟨some d, subs⟩ := by
  show getC (updC w i fun c => c.setEvent name ⟨some d, subs⟩) i = _
  exact getC_updC_self w i _ hi

theorem fire_result_length (w : World) (i : Nat) (name : EvName) (d : Data)
    (subs : List Nat) :
    (fire_result w i name d subs).consumers.length = w.consumers.length :=
  List.length_set w.consumers i _

theorem callN_le (M k : Nat) (hk : k ≤ M) :
    callN ⟨M, 0⟩ k = ⟨M, k⟩ := by
  induction k with
  | zero => rfl
  | succ n ih =>
    have hn : n ≤ M := Nat.le_of_succ_le hk
    have hlt : n < M := hk
    simp only [callN, ih hn, new_connection]
    simp [Nat.not_le.mpr hlt]

/-! ## The claims -/

/-- C3 (admission cap with atomicity): with `max_connections = M > 0`, any
`new_connection` call made when `received ≥ M` raises `TooManyConnections`
and leaves `received` unchanged; each of the first `M` calls from a fresh
producer succeeds, and the `(M+1)`-th call fails with `received` still
`M`. -/
theorem admission_cap (M r k : Nat) (hM : 0 < M) :
    (M ≤ r →
      new_connection ⟨M, r⟩ = (⟨M, r⟩, Except.error "Too many connections")) ∧
    (k < M → (new_connection (callN ⟨M, 0⟩ k)).2 = Except.ok (k + 1)) ∧
    callN ⟨M, 0⟩ M = ⟨M, M⟩ ∧
    new_connection (callN ⟨M, 0⟩ M) =
      (⟨M, M⟩, Except.error "Too many connections") := by
  have hMne : M ≠ 0 := Nat.pos_iff_ne_zero.mp hM
  refine ⟨?_, ?_, callN_le M M le_rfl, ?_⟩
  · intro h
    simp [new_connection, hMne, h]
  · intro h
    rw [callN_le M k (Nat.le_of_lt h)]
    simp [new_connection, Nat.not_le.mpr h]
  · rw [callN_le M M le_rfl]
    simp [new_connection, hMne]

/-- Witness for C3 at `M = 2`: the third call fails and `received` is
still 2. -/
theorem admission_cap_witness :
    (0 : Nat) < 2 ∧
    new_connection (callN ⟨2, 0⟩ 2) =
      (⟨2, 2⟩, Except.error "Too many connections") :=
  ⟨by decide, (admission_cap 2 0 0 (by decide)).2.2.2⟩

/-- C7 (reconnect policy): with a bound connection whose `processed ≥ 2`
and no byte yet received on this consumer, `can_reconnect` returns 1 and
marks `exc.logged`, leaving `reconnect_retries` untouched; otherwise with
`reconnect_retries < max_reconnect` it increments the counter, logs `exc`
and returns the new count; otherwise it returns 0. -/
theorem can_reconnect_policy (s : ReconnectState) (m : Nat) :
    (s.hasConn = true → s.dataReceivedCount = 0 → 2 ≤ s.connProcessed →
      can_reconnect s m =
        { state := s, ret := 1, excLoggedSet := true, excLogCalled := false }) ∧
    (¬ (s.hasConn = true ∧ s.dataReceivedCount = 0 ∧ s.connProcessed > 1) →
      s.reconnectRetries < m →
      can_reconnect s m =
        { state := { s with reconnectRetries := s.reconnectRetries + 1 }
          ret := s.reconnectRetries + 1
          excLoggedSet := false
          excLogCalled := true }) ∧
    (¬ (s.hasConn = true ∧ s.dataReceivedCount = 0 ∧ s.connProcessed > 1) →
      m ≤ s.reconnectRetries →
      can_reconnect s m =
        { state := s, ret := 0, excLoggedSet := false, excLogCalled := false }) := by
  refine ⟨?_, ?_, ?_⟩
  · intro h1 h2 h3
    unfold can_reconnect
    rw [if_pos ⟨h1, h2, h3⟩]
  · intro hneg hlt
    unfold can_reconnect
    rw [if_neg hneg, if_pos hlt]
  · intro hneg hle
    unfold can_reconnect
    rw [if_neg hneg, if_neg (Nat.not_lt.mpr hle)]

/-- Witness for C7: a connection with `processed = 3` and a consumer that
received no bytes; `can_reconnect(0, exc)` returns 1 and sets
`exc.logged`. -/
theorem can_reconnect_policy_witness :
    (true = true ∧ (0 : Nat) = 0 ∧ 2 ≤ 3) ∧
    can_reconnect ⟨true, 3, 0, 5⟩ 0 =
      { state := ⟨true, 3, 0, 5⟩, ret := 1
        excLoggedSet := true, excLogCalled := false } :=
  ⟨⟨rfl, rfl, by decide⟩,
    (can_reconnect_policy ⟨true, 3, 0, 5⟩ 0).1 rfl rfl (by decide)⟩

/-- C5 is refuted: `connection_made` arms the idle timer and the following
`set_consumer` leaves it armed while a consumer is bound; and
`data_received` on a bound consumer that keeps the buffer (no retirement)
re-arms the timer on exit while the consumer is still bound. -/
theorem idle_timer_mutex_counterexample :
    timer_set_consumer (timer_connection_made ⟨none, 5, false, false⟩ false) =
      some ⟨some false, 5, true, true⟩ ∧
    timer_data_received ⟨some false, 5, false, true⟩ true =
      ⟨some false, 5, true, true⟩ := by
  decide

/-- C5 (amended): `_add_idle_timeout` arms the timer exactly when the
transport is open, no timer is pending and `timeout ≠ 0`; the consumer slot
is never consulted (arming commutes with any change of the slot), and
`data_received` ends by cancelling and unconditionally re-arming, whatever
the consumer slot holds. -/
theorem idle_timer_arming (c : TimerConn) (b : Bool) :
    ((add_idle_timeout c).idleTimer = true ↔
      c.idleTimer = true ∨ (c.closed = false ∧ c.timeout ≠ 0)) ∧
    (add_idle_timeout c).consumerBound = c.consumerBound ∧
    add_idle_timeout { c with consumerBound := b } =
      { add_idle_timeout c with consumerBound := b } ∧
    timer_data_received c b =
      add_idle_timeout { c with idleTimer := false, consumerBound := b } := by
  obtain ⟨t, tm, it, bd⟩ := c
  cases t with
  | none =>
    cases it <;>
      simp [add_idle_timeout, TimerConn.closed, timer_data_received, cancel_timeout]
  | some cl =>
    cases cl <;> cases it <;> by_cases htm : tm = 0 <;>
      simp [add_idle_timeout, TimerConn.closed, timer_data_received, cancel_timeout, htm]

/-- C10: `start` on a consumer with no bound connection, or on one whose
connection has no transport, raises `RuntimeError` and leaves the world
unchanged — no `pre_request` fire, no `start_request` hook. -/
theorem start_guard_errors (w : World) (i : Nat) (request : Data)
    (hook : Option Nat) :
    ((getC w i).hasConnection = false →
      start w i request hook =
        (w, some "Cannot start new request. No connection.")) ∧
    ((getC w i).hasConnection = true → w.hasTransport = false →
      start w i request hook = (w, some "connection has no transport.")) := by
  constructor
  · intro h
    simp [start, h]
  · intro h1 h2
    simp [start, h1, h2]

/-- Witness for C10: a consumer never bound to the connection. -/
theorem start_guard_errors_witness :
    (getC emptyWorld 0).hasConnection = false ∧
    start emptyWorld 0 Data.noneD none =
      (emptyWorld, some "Cannot start new request. No connection.") :=
  ⟨by decide, (start_guard_errors emptyWorld 0 Data.noneD none).1 (by decide)⟩

/-- C2 (residual discipline): in the `Connection.data_received` loop, a
non-empty residual returned while the consumer is still bound raises
`ProtocolError('current consumer not done.')`; a non-empty residual from a
call that retired the consumer is accepted, the loop continuing on the
residual with an empty slot — from which the next iteration creates the
next consumer (`nextId`) and feeds it the residual. -/
theorem residual_discipline (behave : Nat → List Nat → List Nat × Bool)
    (fuel : Nat) (s : LoopState) (data residual : List Nat) (i : Nat)
    (hcur : s.current = some i) (hdata : data ≠ []) (hres : residual ≠ []) :
    (behave i data = (residual, false) →
      data_received_loop behave (fuel + 1) s data =
        LoopOutcome.protocolError "current consumer not done.") ∧
    (behave i data = (residual, true) →
      data_received_loop behave (fuel + 1) s data =
        data_received_loop behave fuel ⟨none, s.nextId⟩ residual) ∧
    (∀ n (buf : List Nat), buf ≠ [] →
      data_received_loop behave (fuel + 1) ⟨none, n⟩ buf =
        (let r := behave n buf
         let s2 : LoopState := if r.2 then ⟨none, n + 1⟩ else ⟨some n, n + 1⟩
         if r.1 ≠ ([] : List Nat) ∧ s2.current.isSome then
           LoopOutcome.protocolError "current consumer not done."
         else data_received_loop behave fuel s2 r.1)) := by
  obtain ⟨a, rest, rfl⟩ : ∃ a rest, data = a :: rest := by
    cases data with
    | nil => exact absurd rfl hdata
    | cons a rest => exact ⟨a, rest, rfl⟩
  refine ⟨?_, ?_, ?_⟩
  · intro hb
    simp only [data_received_loop, loop_body, hcur, hb, Bool.false_eq_true,
      if_false, Option.isSome_some, and_true]
    rw [if_pos hres]
  · intro hb
    have hs : ({ s with current := none } : LoopState) = ⟨none, s.nextId⟩ := rfl
    simp only [data_received_loop, loop_body, hcur, hb, if_true, hs,
      Option.isSome_none, Bool.false_eq_true, and_false, if_false]
  · intro n buf hbuf
    obtain ⟨b, brest, rfl⟩ : ∃ b brest, buf = b :: brest := by
      cases buf with
      | nil => exact absurd rfl hbuf
      | cons b brest => exact ⟨b, brest, rfl⟩
    simp only [data_received_loop, loop_body]

/-- Witness for C2: a consumer that keeps the buffer and returns residual
`[1]` without retiring trips the `ProtocolError`. -/
theorem residual_discipline_witness :
    ((⟨some 0, 1⟩ : LoopState).current = some 0 ∧
      ([2, 1] : List Nat) ≠ [] ∧ ([1] : List Nat) ≠ []) ∧
    ((fun (_ : Nat) (_ : List Nat) => (([1] : List Nat), false)) 0 [2, 1] =
        ([1], false) →
      data_received_loop (fun (_ : Nat) (_ : List Nat) => ([1], false)) 1
          ⟨some 0, 1⟩ [2, 1] =
        LoopOutcome.protocolError "current consumer not done.") :=
  ⟨⟨rfl, by decide, by decide⟩,
    (residual_discipline (fun (_ : Nat) (_ : List Nat) => ([1], false)) 0
      ⟨some 0, 1⟩ [2, 1] [1] 0 rfl (by decide) (by decide)).1⟩

/-- C4 is refuted on the stated guard: after consumer 0 retires and
consumer 1 is bound, consumer 0 still references the connection; calling
`finished` on consumer 0 again nulls the slot even though the slot holds
consumer 1, not consumer 0. -/
theorem finished_slot_counterexample :
    c4Mid.map (fun w => (w.current, (finished w 0 Data.noneD).current)) =
      some (some 1, none) := by
  decide

/-- C4 (amended): `finished(result)` nulls the connection's
`current_consumer` slot whenever the consumer references its connection —
without comparing the slot with this consumer — then fires `finish` with
`result`, then fires `post_request` with the same `result`, in that
order. -/
theorem finished_unconditional_detach (w : World) (i : Nat) (r : Data)
    (hconn : (getC w i).hasConnection = true)
    (hfin : (getC w i).finish.fired = none)
    (hpost : (getC w i).postRequest.fired = none) :
    (finished w i r).current = none ∧
    (finished w i r).log =
      w.log ++ ((getC w i).finish.subs.map fun s => LogEntry.cb s r)
            ++ ((getC w i).postRequest.subs.map fun s => LogEntry.cb s r) ∧
    (getC (finished w i r) i).finish.fired = some r ∧
    (getC (finished w i r) i).postRequest.fired = some r := by
  have hi : i < w.consumers.length := getC_lt w i hconn
  have h1 : fire_event { w with current := none } i EvName.finish r =
      (fire_result { w with current := none } i EvName.finish r
        (getC w i).finish.subs, true) :=
    fire_event_pending { w with current := none } i EvName.finish r hfin
  have hgc2 : getC (fire_result { w with current := none } i EvName.finish r
      (getC w i).finish.subs) i =
      (getC w i).setEvent EvName.finish ⟨some r, (getC w i).finish.subs⟩ :=
    getC_fire_result { w with current := none } i EvName.finish r _ hi
  have hpost2 : ((getC (fire_result { w with current := none } i EvName.finish r
      (getC w i).finish.subs) i).getEvent EvName.postRequest).fired = none := by
    rw [hgc2]
    exact hpost
  have h2 : fire_event (fire_result { w with current := none } i EvName.finish r
      (getC w i).finish.subs) i EvName.postRequest r =
      (fire_result (fire_result { w with current := none } i EvName.finish r
        (getC w i).finish.subs) i EvName.postRequest r
        (getC w i).postRequest.subs, true) := by
    rw [fire_event_pending _ i EvName.postRequest r hpost2, hgc2]
    rfl
  have hfin_eq : finished w i r =
      fire_result (fire_result { w with current := none } i EvName.finish r
        (getC w i).finish.subs) i EvName.postRequest r
        (getC w i).postRequest.subs := by
    unfold finished
    rw [if_pos hconn]
    show (fire_event (fire_event { w with current := none } i EvName.finish r).1
      i EvName.postRequest r).1 = _
    rw [h1]
    show (fire_event (fire_result { w with current := none } i EvName.finish r
      (getC w i).finish.subs) i EvName.postRequest r).1 = _
    rw [h2]
  have hi2 : i < (fire_result { w with current := none } i EvName.finish r
      (getC w i).finish.subs).consumers.length := by
    rw [fire_result_length]
    exact hi
  refine ⟨?_, ?_, ?_, ?_⟩
  · rw [hfin_eq]
    rfl
  · rw [hfin_eq]
    rfl
  · rw [hfin_eq, getC_fire_result _ i _ _ _ hi2, hgc2]
    rfl
  · rw [hfin_eq, getC_fire_result _ i _ _ _ hi2, hgc2]
    rfl

/-- Witness for C4's amended theorem: one bound consumer with a `finish`
and a `post_request` subscriber; `finished` detaches, then invokes the
`finish` subscriber, then the `post_request` subscriber. -/
theorem finished_unconditional_detach_witness :
    (getC (upgradeWorld [3] [4]) 0).hasConnection = true ∧
    ((finished (upgradeWorld [3] [4]) 0 (Data.natD 2)).current = none ∧
      (finished (upgradeWorld [3] [4]) 0 (Data.natD 2)).log =
        (upgradeWorld [3] [4]).log
          ++ ((getC (upgradeWorld [3] [4]) 0).finish.subs.map fun s =>
                LogEntry.cb s (Data.natD 2))
          ++ ((getC (upgradeWorld [3] [4]) 0).postRequest.subs.map fun s =>
                LogEntry.cb s (Data.natD 2)) ∧
      (getC (finished (upgradeWorld [3] [4]) 0 (Data.natD 2)) 0).finish.fired =
        some (Data.natD 2) ∧
      (getC (finished (upgradeWorld [3] [4]) 0 (Data.natD 2))
        0).postRequest.fired = some (Data.natD 2)) :=
  ⟨by decide,
    finished_unconditional_detach (upgradeWorld [3] [4]) 0 (Data.natD 2)
      (by decide) (by decide) (by decide)⟩

/-- C6 (`_data_received` contract): every call bumps `data_received_count`
by exactly 1 and zeroes `reconnect_retries`, fires the many-times
`data_received` event with the raw buffer strictly before the subclass
`data_received` body runs, fires `data_processed` strictly after it, and
returns the body's return value (the residual).  `bl` is whatever the body
itself appended to the log; the frame hypotheses say the body only appends
to the log and leaves the consumer table alone. -/
theorem low_data_received_contract (w : World) (i : Nat) (data : List Nat)
    (body : World → World × Data) (bl : List LogEntry)
    (hi : i < w.consumers.length)
    (hlog : (body (dr_enter w i data)).1.log = (dr_enter w i data).log ++ bl)
    (hcons : (body (dr_enter w i data)).1.consumers =
      (dr_enter w i data).consumers) :
    (_data_received w i data body).2 = (body (dr_enter w i data)).2 ∧
    (_data_received w i data body).1.log =
      w.log
        ++ ((getC w i).dataReceivedSubs.map fun s =>
              LogEntry.cb s (Data.bytesD data))
        ++ bl
        ++ ((getC w i).dataProcessedSubs.map fun s =>
              LogEntry.cb s (Data.bytesD data)) ∧
    (getC (_data_received w i data body).1 i).dataReceivedCount =
      (getC w i).dataReceivedCount + 1 ∧
    (getC (_data_received w i data body).1 i).reconnectRetries = 0 := by
  have hgcd : getC (dr_enter w i data) i = dr_bump (getC w i) := by
    show getC (updC w i dr_bump) i = _
    exact getC_updC_self w i dr_bump hi
  have hbody_gc : getC (body (dr_enter w i data)).1 i =
      getC (dr_enter w i data) i := by
    unfold getC
    rw [hcons]
  have hlogd : (dr_enter w i data).log =
      w.log ++ (getC w i).dataReceivedSubs.map fun s =>
        LogEntry.cb s (Data.bytesD data) := by
    show (updC w i dr_bump).log
        ++ ((getC (updC w i dr_bump) i).dataReceivedSubs.map fun s =>
          LogEntry.cb s (Data.bytesD data)) = _
    rw [getC_updC_self w i dr_bump hi]
    rfl
  refine ⟨rfl, ?_, ?_, ?_⟩
  · show ((body (dr_enter w i data)).1.log ++
      (getC (body (dr_enter w i data)).1 i).dataProcessedSubs.map fun s =>
        LogEntry.cb s (Data.bytesD data)) = _
    rw [hbody_gc, hgcd, hlog, hlogd]
    rfl
  · show (getC (body (dr_enter w i data)).1 i).dataReceivedCount = _
    rw [hbody_gc, hgcd]
    rfl
  · show (getC (body (dr_enter w i data)).1 i).reconnectRetries = 0
    rw [hbody_gc, hgcd]
    rfl

/-- Witness for C6: consumer 0 of `c6World` fed the buffer `[9]` with the
consume-all body. -/
theorem low_data_received_contract_witness :
    (0 < c6World.consumers.length ∧
      (c6Body (dr_enter c6World 0 [9])).1.log =
        (dr_enter c6World 0 [9]).log ++ [] ∧
      (c6Body (dr_enter c6World 0 [9])).1.consumers =
        (dr_enter c6World 0 [9]).consumers) ∧
    (getC (_data_received c6World 0 [9] c6Body).1 0).dataReceivedCount =
      (getC c6World 0).dataReceivedCount + 1 :=
  ⟨⟨by decide, by decide, by decide⟩,
    (low_data_received_contract c6World 0 [9] c6Body [] (by decide) (by decide)
      (by decide)).2.2.1⟩

/-- C9 (`start` contract): with a bound connection, a transport and a
pending `pre_request`, `start(request)` fires `pre_request` with `request`
as payload (subscriber invocations appended first), then runs the subclass
`start_request` hook iff `request` is non-null; an exception `e` raised by
the hook is caught and converted into a `finished(exc_info)` call, and no
error ever escapes to the caller of `start`. -/
theorem start_contract (w : World) (i : Nat) (request : Data)
    (hook : Option Nat)
    (hconn : (getC w i).hasConnection = true)
    (htr : w.hasTransport = true)
    (hpre : (getC w i).preRequest.fired = none) :
    (start w i request hook).2 = none ∧
    (getC (start_fire w i request) i).preRequest.fired = some request ∧
    (start_fire w i request).log =
      w.log ++ ((getC w i).preRequest.subs.map fun s =>
        LogEntry.cb s request) ∧
    (request = Data.noneD →
      start w i request hook = (start_fire w i request, none)) ∧
    (request ≠ Data.noneD → hook = none →
      start w i request hook =
        ({ start_fire w i request with
            log := (start_fire w i request).log ++ [LogEntry.hookRun i] },
          none)) ∧
    (∀ e, request ≠ Data.noneD → hook = some e →
      start w i request hook =
        (finished { start_fire w i request with
            log := (start_fire w i request).log ++ [LogEntry.hookRun i] } i
          (Data.excD e), none)) := by
  have hi : i < w.consumers.length := getC_lt w i hconn
  have hiU : i < (updC w i (set_request request)).consumers.length := by
    rw [updC_length]
    exact hi
  have hU : getC (updC w i (set_request request)) i =
      set_request request (getC w i) :=
    getC_updC_self w i (set_request request) hi
  have hpreU : ((getC (updC w i (set_request request)) i).getEvent
      EvName.preRequest).fired = none := by
    rw [hU]
    exact hpre
  have hsf : start_fire w i request =
      fire_result (updC w i (set_request request)) i
        EvName.preRequest request (getC w i).preRequest.subs := by
    unfold start_fire
    rw [fire_event_pending _ i EvName.preRequest request hpreU, hU]
    rfl
  have he : start w i request hook =
      (if request = Data.noneD then (start_fire w i request, none)
       else
        match hook with
        | none =>
          ({ start_fire w i request with
              log := (start_fire w i request).log ++ [LogEntry.hookRun i] },
            none)
        | some e =>
          (finished { start_fire w i request with
              log := (start_fire w i request).log ++ [LogEntry.hookRun i] } i
            (Data.excD e), none)) := by
    unfold start
    rw [hconn, htr]
    simp only [Bool.true_eq_false, if_false]
  have h4 : request = Data.noneD →
      start w i request hook = (start_fire w i request, none) := by
    intro h
    rw [he, if_pos h]
  have h5 : request ≠ Data.noneD → hook = none →
      start w i request hook =
        ({ start_fire w i request with
            log := (start_fire w i request).log ++ [LogEntry.hookRun i] },
          none) := by
    intro h hn
    rw [he, if_neg h, hn]
  have h6 : ∀ e, request ≠ Data.noneD → hook = some e →
      start w i request hook =
        (finished { start_fire w i request with
            log := (start_fire w i request).log ++ [LogEntry.hookRun i] } i
          (Data.excD e), none) := by
    intro e h hsome
    rw [he, if_neg h, hsome]
  refine ⟨?_, ?_, ?_, h4, h5, h6⟩
  · by_cases hreq : request = Data.noneD
    · rw [h4 hreq]
    · cases hhook : hook with
      | none =>
        have h' := h5 hreq hhook
        rw [hhook] at h'
        rw [h']
      | some e =>
        have h' := h6 e hreq hhook
        rw [hhook] at h'
        rw [h']
  · rw [hsf, getC_fire_result _ i _ _ _ hiU, hU]
    rfl
  · rw [hsf]
    rfl

/-- Witness for C9: consumer 0 of `c9World` started with request `natD 1`
and a hook raising exception 2; no error escapes. -/
theorem start_contract_witness :
    ((getC c9World 0).hasConnection = true ∧
      c9World.hasTransport = true ∧
      (getC c9World 0).preRequest.fired = none) ∧
    (start c9World 0 (Data.natD 1) (some 2)).2 = none :=
  ⟨⟨by decide, by decide, by decide⟩,
    (start_contract c9World 0 (Data.natD 1) (some 2) (by decide) (by decide)
      (by decide)).1⟩

theorem cbCount_map_cb (s : Nat) (l : List Nat) (d : Data) :
    cbCount s (l.map fun t => LogEntry.cb t d) = l.count s := by
  unfold cbCount
  rw [List.countP_map]
  rfl

theorem cbCount_append (s : Nat) (l1 l2 : List LogEntry) :
    cbCount s (l1 ++ l2) = cbCount s l1 + cbCount s l2 :=
  List.countP_append _ l1 l2

/-- C1 (upgrade preserves `post_request`): on a connection whose current
consumer has a resolved `pre_request` and a pending `post_request` carrying
a subscriber `s` (subscribed once, and not also a `finish` subscriber),
calling `upgrade` steals the `post_request` cell: the old consumer is left
with a fresh subscriber-less cell, the replacement built by the upgraded
factory carries the stolen cell `⟨none, ps⟩`, `s` is not invoked while the
old consumer retires or the replacement starts, and `s` is invoked exactly
once — when the replacement retires, with the replacement's result. -/
theorem upgrade_preserves_post_request (fs ps : List Nat) (s : Nat)
    (r1 r2 : Data) (hone : ps.count s = 1) (hfs : s ∉ fs) :
    upgradeMid fs ps r1 = some (wmid fs ps r1, 1) ∧
    (getC (wmid fs ps r1) 1).postRequest = ⟨none, ps⟩ ∧
    (getC (wmid fs ps r1) 0).postRequest.subs = [] ∧
    cbCount s (wmid fs ps r1).log = 0 ∧
    upgradeEnd fs ps r1 r2 = some (finished (wmid fs ps r1) 1 r2) ∧
    (finished (wmid fs ps r1) 1 r2).log =
      (fs.map fun t => LogEntry.cb t r1) ++ (ps.map fun t => LogEntry.cb t r2) ∧
    cbCount s (finished (wmid fs ps r1) 1 r2).log = 1 := by
  have hmid : upgradeMid fs ps r1 = some (wmid fs ps r1, 1) := by
    simp [upgradeMid, upgrade, upgradeWorld, pop_event, getC, updC, finished,
      fire_event, fire_result, consumer_from_factory, apply_factory,
      set_consumer, new_connection_of, copy_many_times_events, start,
      start_fire, set_request, fire_many, freshConsumer, wmid,
      Consumer.getEvent, Consumer.setEvent, Option.bind, List.getD]
  have hlog2 : (finished (wmid fs ps r1) 1 r2).log =
      (fs.map fun t => LogEntry.cb t r1) ++
        (ps.map fun t => LogEntry.cb t r2) := by
    simp [finished, fire_event, fire_result, getC, updC, wmid, freshConsumer,
      Consumer.getEvent, Consumer.setEvent, List.getD]
  refine ⟨hmid, rfl, rfl, ?_, ?_, hlog2, ?_⟩
  · show cbCount s (fs.map fun t => LogEntry.cb t r1) = 0
    rw [cbCount_map_cb]
    exact List.count_eq_zero.mpr hfs
  · simp [upgradeEnd, hmid]
  · rw [hlog2, cbCount_append, cbCount_map_cb, cbCount_map_cb,
      List.count_eq_zero.mpr hfs, hone]

/-- Witness for C1: `finish` subscribers none, `post_request` subscriber 5;
subscriber 5 fires exactly once over the whole upgraded exchange. -/
theorem upgrade_preserves_post_request_witness :
    ([5] : List Nat).count 5 = 1 ∧ 5 ∉ ([] : List Nat) ∧
    cbCount 5 (finished (wmid [] [5] Data.noneD) 1 (Data.natD 8)).log = 1 :=
  ⟨by decide, by decide,
    (upgrade_preserves_post_request [] [5] 5 Data.noneD (Data.natD 8)
      (by decide) (by decide)).2.2.2.2.2.2⟩

/-- C8 is refuted: starting from `processed = 1`, after
`upgrade(new_connection=True)` the `set_consumer` binding the upgraded
replacement increments `processed` to 2 and copies the connection's
many-times subscriber 7 into the replacement — the claim asserts it does
neither. -/
theorem upgrade_new_connection_counterexample :
    (c8World 7).processed = 1 ∧
    (c8Run 7 true).map (fun p => (p.1.processed, (getC p.1 1).finish.subs)) =
      some (2, [7]) := by
  decide

/-- C8 (amended): after `upgrade` with `new_connection = b`, the
`set_consumer` call binding the upgraded replacement increments `processed`
and copies the connection's many-times subscribers into that consumer
exactly when `b = true` — the code's polarity is the reverse of the
claim's: the default `new_connection = false` is what skips the increment
and the copy. -/
theorem upgrade_new_connection_effect (m : Nat) (b : Bool) :
    c8Run m b = some (c8Result m b, 1) ∧
    (c8Result m b).processed = (if b then 2 else 1) ∧
    (getC (c8Result m b) 1).finish.subs = (if b then [m] else []) := by
  refine ⟨?_, ?_, ?_⟩
  · cases b <;>
      simp [c8Run, c8World, c8Result, upgrade, upgradeWorld, pop_event, getC,
        updC, finished, fire_event, fire_result, consumer_from_factory,
        apply_factory, set_consumer, new_connection_of,
        copy_many_times_events, bind_event, start, start_fire, set_request,
        fire_many, freshConsumer, Consumer.getEvent, Consumer.setEvent,
        Option.bind, List.getD]
  · cases b <;> rfl
  · cases b <;> rfl

end Pulsar
